import Mathlib

/-!
Verification development for the Decision Rules evaluation engine of the
FRA-ATLAS repository (`DecisionRulesService` in the backend service layer).

The TypeScript service is shallowly embedded: JavaScript runtime values that
can appear in a JSONB-stored rule or in an evaluation record are modelled by
`JsVal`; JavaScript coercions (`Number(...)`, `String(...)`, `===`,
SameValueZero) are modelled by explicit total functions.  Numbers are
modelled by `ℚ` with `none` standing for `NaN` (an approximation of IEEE
doubles adequate for the properties below, none of which depends on
floating-point rounding).  Code that can throw (destructuring a `null`
condition object) is embedded in `Except String`.
-/

/-- Model of a JavaScript runtime value as it can occur in a parsed JSONB
condition tree or in an evaluation record.  `undefined` is the JavaScript
`undefined` (also used for an absent object property); `num none` is `NaN`. -/
inductive JsVal where
  | undefined : JsVal
  | null : JsVal
  | bool : Bool → JsVal
  | num : Option ℚ → JsVal
  | str : String → JsVal
  | arr : List JsVal → JsVal

/-- Model of JavaScript `v === undefined || v === null`. -/
def isNullish : JsVal → Bool
  | .undefined => true
  | .null => true
  | _ => false

/-- Model of JavaScript `v === undefined`. -/
def isUndefinedVal : JsVal → Bool
  | .undefined => true
  | _ => false

/-- Decimal digits of the fractional part `rem / d`, produced by long
division, at most `k` digits (JavaScript prints at most 17 significant
digits for a double; the truncation is an approximation of double
formatting). -/
def fracDigits : Nat → Nat → Nat → String
  | _, _, 0 => ""
  | rem, d, k + 1 =>
    if rem = 0 then ""
    else
      let r10 := rem * 10
      toString (r10 / d) ++ fracDigits (r10 % d) d k

/-- Model of JavaScript number-to-string conversion on the `ℚ` model of
doubles: sign, integer part, and a decimal point with fractional digits
when the value is not an integer. -/
def formatRat (q : ℚ) : String :=
  let sign := if q < 0 then "-" else ""
  let a := |q|
  let n := a.num.toNat
  let d := a.den
  let whole := n / d
  let rem := n % d
  sign ++ toString whole ++ (if rem = 0 then "" else "." ++ fracDigits rem d 17)

mutual

/-- String rendering of an array element inside `Array.prototype.join`:
`undefined` and `null` render as the empty string, every other value by the
usual string conversion. -/
def jsStringElem : JsVal → String
  | .undefined => ""
  | .null => ""
  | .bool b => if b then "true" else "false"
  | .num none => "NaN"
  | .num (some q) => formatRat q
  | .str s => s
  | .arr l => jsStringArr l

/-- Model of `Array.prototype.join(",")`, the string conversion of a
JavaScript array. -/
def jsStringArr : List JsVal → String
  | [] => ""
  | [v] => jsStringElem v
  | v :: w :: rest => jsStringElem v ++ "," ++ jsStringArr (w :: rest)

end

/-- Model of JavaScript `String(v)`. -/
def jsString : JsVal → String
  | .undefined => "undefined"
  | .null => "null"
  | v => jsStringElem v

/-- Numeric value of a list of decimal digit characters. -/
def digitsToNat (l : List Char) : Nat :=
  l.foldl (fun a c => a * 10 + (c.toNat - 48)) 0

/-- Parse an unsigned decimal literal (`"12"`, `"1.5"`, `"1."`, `".5"`).
Returns `none` (`NaN`) on anything else.  This models the decimal-literal
fragment of JavaScript string-to-number conversion (hexadecimal, exponent
and `Infinity` forms are outside the fragment the repository stores). -/
def parseDec (l : List Char) : Option ℚ :=
  let ip := l.takeWhile (fun c => c ≠ '.')
  let rest := l.dropWhile (fun c => c ≠ '.')
  match rest with
  | [] =>
    if ip ≠ [] ∧ ip.all Char.isDigit then some (digitsToNat ip) else none
  | _ :: fp =>
    if (ip ≠ [] ∨ fp ≠ []) ∧ ip.all Char.isDigit ∧ fp.all Char.isDigit ∧
        fp.all (fun c => c ≠ '.') then
      some ((digitsToNat ip : ℚ) + (digitsToNat fp : ℚ) / ((10 : ℚ) ^ fp.length))
    else none

/-- Parse a signed decimal literal. -/
def parseSigned : List Char → Option ℚ
  | '+' :: rest => parseDec rest
  | '-' :: rest => (parseDec rest).map (fun q => -q)
  | l => parseDec l

/-- Model of JavaScript string-to-number conversion: surrounding whitespace
is ignored and the empty string converts to `0`. -/
def jsParseNumber (s : String) : Option ℚ :=
  let t := s.trim
  if t = "" then some 0 else parseSigned t.data

/-- Model of JavaScript `Number(v)`; `none` is `NaN`.  An array converts via
its string rendering. -/
def toNumber : JsVal → Option ℚ
  | .undefined => none
  | .null => some 0
  | .bool b => some (if b then 1 else 0)
  | .num q => q
  | .str s => jsParseNumber s
  | .arr l => jsParseNumber (jsStringArr l)

/-- Model of JavaScript strict equality `===` on values originating from
distinct JSON parses: `NaN` is unequal to everything, values of different
types are unequal, and two arrays are unequal (reference equality on
distinct heap objects). -/
def strictEq : JsVal → JsVal → Bool
  | .undefined, .undefined => true
  | .null, .null => true
  | .bool a, .bool b => a == b
  | .num (some x), .num (some y) => x == y
  | .str a, .str b => a == b
  | _, _ => false

/-- SameValueZero, the comparison used by `Array.prototype.includes`: like
`===` but `NaN` equals `NaN`. -/
def sameValueZero (a b : JsVal) : Bool :=
  match a, b with
  | .num none, .num none => true
  | _, _ => strictEq a b

/-- Model of `value.includes(x)` on a JavaScript array. -/
def svzIncludes (l : List JsVal) (x : JsVal) : Bool :=
  l.any (fun v => sameValueZero v x)

/-- ASCII lowercase of a string, modelling `String.prototype.toLowerCase`
on the ASCII fragment. -/
def lowerStr (s : String) : String :=
  s.map Char.toLower

/-- Does `needle` occur as a contiguous substring of `hay`?  Models
`String.prototype.includes`. -/
def hasSub (needle : List Char) : List Char → Bool
  | [] => needle.isEmpty
  | c :: t => needle.isPrefixOf (c :: t) || hasSub needle t

/-- `hay.includes(needle)` on strings. -/
def strIncludes (hay needle : String) : Bool :=
  hasSub needle.data hay.data

/-- Model of a JavaScript comparison `Number(a) > Number(b)`: false when
either side is `NaN`. -/
def jsGT : Option ℚ → Option ℚ → Bool
  | some a, some b => decide (b < a)
  | _, _ => false

/-- Model of `Number(a) < Number(b)`. -/
def jsLT : Option ℚ → Option ℚ → Bool
  | some a, some b => decide (a < b)
  | _, _ => false

/-- The evaluation record: a JavaScript object mapped shallowly to an
association list from property name to value. -/
def EvalRecord : Type := List (String × JsVal)

/-- Property lookup `data[field]`: an absent property reads as
`undefined`. -/
def getField (data : EvalRecord) (f : String) : JsVal :=
  match data.find? (fun p => p.1 == f) with
  | some p => p.2
  | none => .undefined

/-- An atomic rule condition (`RuleCondition` in the source).  The
`operator` is a plain string: the TypeScript union type is erased at
runtime and the switch must handle arbitrary names. -/
structure RuleCondition where
  field : String
  operator : String
  value : JsVal

/-- `DecisionRulesService.evaluateCondition`: evaluates one atomic
condition against a record.  Mirrors the source switch: nullish field value
fails immediately, the eight named operators have their coercion semantics,
and any other operator name falls to the default `false`. -/
def evaluateCondition (condition : RuleCondition) (data : EvalRecord) : Bool :=
  let fieldValue := getField data condition.field
  if isNullish fieldValue then false
  else
    match condition.operator with
    | "equals" => strictEq fieldValue condition.value
    | "not_equals" => !strictEq fieldValue condition.value
    | "greater_than" => jsGT (toNumber fieldValue) (toNumber condition.value)
    | "less_than" => jsLT (toNumber fieldValue) (toNumber condition.value)
    | "contains" =>
      strIncludes (lowerStr (jsString fieldValue)) (lowerStr (jsString condition.value))
    | "not_contains" =>
      !strIncludes (lowerStr (jsString fieldValue)) (lowerStr (jsString condition.value))
    | "in" =>
      match condition.value with
      | .arr l => svzIncludes l fieldValue
      | _ => false
    | "not_in" =>
      match condition.value with
      | .arr l => !svzIncludes l fieldValue
      | _ => false
    | _ => false

/-- A child entry of an `and`/`or` list in a stored conditions object.  The
source iterates the stored JSON array and passes each entry straight to
`evaluateCondition`, whose destructuring `const { field, operator, value } =
condition` throws a `TypeError` when the entry is `null`; a proper object
entry is read as an atomic condition. -/
inductive CondChild where
  | jsNull : CondChild
  | cond : RuleCondition → CondChild

/-- The stored `conditions` JSONB object, projected onto the properties the
service reads (`and`, `or`, `field`, `operator`, `value`) together with the
spec-level keys `all`/`any`, which the service never reads (unrecognized
properties of the JSON object).  `keyAnd = some l` models a present `and`
property whose value is an array (a present non-array value fails the
source's `Array.isArray` guard and behaves like an absent property, i.e.
`none`); likewise for the other array-valued keys.  `keyField`/`keyOperator`
are `some` exactly when the property is present with a string value, and
`keyValue` is `JsVal.undefined` when the `value` property is absent. -/
structure CondObj where
  keyAll : Option (List CondChild)
  keyAny : Option (List CondChild)
  keyAnd : Option (List CondChild)
  keyOr : Option (List CondChild)
  keyField : Option String
  keyOperator : Option String
  keyValue : JsVal

/-- The rendered trace entry for one atomic condition, the template literal
of the source. -/
def condDesc (c : RuleCondition) : String :=
  c.field ++ " " ++ c.operator ++ " " ++ jsString c.value

/-- Result of `evaluateRuleConditions` (the object literal returned by the
source). -/
structure TreeEval where
  matched : Bool
  conditions_met : List String
  conditions_failed : List String
deriving DecidableEq

/-- The `and` loop of `evaluateRuleConditions`: every child is evaluated,
its description appended to the matching trace list, and `matched` cleared
on any failing child.  A `null` child throws out of the loop. -/
def runAnd (data : EvalRecord) : List CondChild → TreeEval → Except String TreeEval
  | [], acc => .ok acc
  | CondChild.jsNull :: _, _ =>
    .error "TypeError: cannot destructure a null condition"
  | CondChild.cond c :: rest, acc =>
    if evaluateCondition c data then
      runAnd data rest { acc with conditions_met := acc.conditions_met ++ [condDesc c] }
    else
      runAnd data rest
        { acc with conditions_failed := acc.conditions_failed ++ [condDesc c],
                   matched := false }

/-- The `or` loop of `evaluateRuleConditions`: every child is evaluated and
traced; `matched` is set on any succeeding child. -/
def runOr (data : EvalRecord) : List CondChild → TreeEval → Except String TreeEval
  | [], acc => .ok acc
  | CondChild.jsNull :: _, _ =>
    .error "TypeError: cannot destructure a null condition"
  | CondChild.cond c :: rest, acc =>
    if evaluateCondition c data then
      runOr data rest
        { acc with conditions_met := acc.conditions_met ++ [condDesc c],
                   matched := true }
    else
      runOr data rest { acc with conditions_failed := acc.conditions_failed ++ [condDesc c] }

/-- `DecisionRulesService.evaluateRuleConditions`: dispatches on the shape
of the stored conditions object.  An `and` array (empty included — an empty
JavaScript array is truthy) takes the first branch with `matched`
initialized `true`; otherwise an `or` array takes the second with `matched`
initialized `false`; otherwise a truthy `field` and `operator` with a
non-`undefined` `value` is evaluated as a single condition; anything else
is the invalid-format fallback. -/
def evaluateRuleConditions (conditions : CondObj) (data : EvalRecord) :
    Except String TreeEval :=
  match conditions.keyAnd with
  | some children => runAnd data children ⟨true, [], []⟩
  | none =>
    match conditions.keyOr with
    | some children => runOr data children ⟨false, [], []⟩
    | none =>
      match conditions.keyField, conditions.keyOperator with
      | some f, some op =>
        if f ≠ "" ∧ op ≠ "" ∧ isUndefinedVal conditions.keyValue = false then
          let c : RuleCondition := ⟨f, op, conditions.keyValue⟩
          if evaluateCondition c data then .ok ⟨true, [condDesc c], []⟩
          else .ok ⟨false, [], [condDesc c]⟩
        else .ok ⟨false, [], ["Invalid condition format"]⟩
      | _, _ => .ok ⟨false, [], ["Invalid condition format"]⟩

/-- An active rule as returned by `getActiveRules`: the fields of a stored
row that `evaluateRules` reads.  A persisted row always has an `id`
(the source asserts `rule.id!`). -/
structure ActiveRule where
  id : Int
  rule_name : String
  conditions : CondObj
  action : String

/-- `RuleEvaluationResult` of the source.  `evaluation_time` is the
wall-clock duration `Date.now() - ruleStartTime`; real time is outside the
model and it is fixed to `0`. -/
structure RuleEvaluationResult where
  rule_id : Int
  rule_name : String
  matched : Bool
  action : String
  conditions_met : List String
  conditions_failed : List String
  evaluation_time : Nat
deriving DecidableEq

/-- The result object `evaluateRules` pushes for one rule. -/
def toResult (r : ActiveRule) (t : TreeEval) : RuleEvaluationResult :=
  ⟨r.id, r.rule_name, t.matched, r.action, t.conditions_met, t.conditions_failed, 0⟩

/-- The per-rule loop of `evaluateRules`.  The source has no try/catch
around the per-rule evaluation, so a thrown error propagates out of the
whole loop. -/
def evalRulesLoop (data : EvalRecord) : List ActiveRule → Except String (List RuleEvaluationResult)
  | [] => .ok []
  | r :: rest =>
    match evaluateRuleConditions r.conditions data with
    | .error e => .error e
    | .ok t =>
      match evalRulesLoop data rest with
      | .error e => .error e
      | .ok tail => .ok (toResult r t :: tail)

/-- The comparator of the final `results.sort((a, b) => a.rule_id - b.rule_id)`. -/
def byRuleId (a b : RuleEvaluationResult) : Prop :=
  a.rule_id ≤ b.rule_id

instance : DecidableRel byRuleId :=
  fun a b => inferInstanceAs (Decidable (a.rule_id ≤ b.rule_id))

instance : IsTotal RuleEvaluationResult byRuleId :=
  ⟨fun a b => le_total a.rule_id b.rule_id⟩

instance : IsTrans RuleEvaluationResult byRuleId :=
  ⟨fun _ _ _ h h' => le_trans h h'⟩

/-- `DecisionRulesService.evaluateRules`: evaluates every active rule
against the record and returns the results sorted ascending by `rule_id`.
ECMAScript `Array.prototype.sort` with a consistent comparator produces a
stable sorted permutation; it is modelled by a stable insertion sort. -/
def evaluateRules (rules : List ActiveRule) (data : EvalRecord) :
    Except String (List RuleEvaluationResult) :=
  match evalRulesLoop data rules with
  | .error e => .error e
  | .ok results => .ok (results.insertionSort byRuleId)

/-- The recommendation bundle returned by `getRecommendedActions`. -/
structure Recommendations where
  actions : List String
  high_priority_actions : List String
  warnings : List String
deriving DecidableEq

/-- The urgency test of the source:
`action.toLowerCase().includes('urgent') || action.toLowerCase().includes('critical')`. -/
def isHighPriority (action : String) : Bool :=
  strIncludes (lowerStr action) "urgent" || strIncludes (lowerStr action) "critical"

/-- The warning string synthesized for an unmatched rule. -/
def warningFor (r : RuleEvaluationResult) : String :=
  "Rule \"" ++ r.rule_name ++ "\" conditions not met: " ++
    String.intercalate ", " r.conditions_failed

/-- `DecisionRulesService.getRecommendedActions`: buckets matched results
by the urgency keyword test and synthesizes warnings for unmatched results
with a non-empty failure trace, preserving input order in each bucket. -/
def getRecommendedActions : List RuleEvaluationResult → Recommendations
  | [] => ⟨[], [], []⟩
  | r :: rest =>
    let tail := getRecommendedActions rest
    if r.matched then
      if isHighPriority r.action then
        { tail with high_priority_actions := r.action :: tail.high_priority_actions }
      else
        { tail with actions := r.action :: tail.actions }
    else if r.conditions_failed.length > 0 then
      { tail with warnings := warningFor r :: tail.warnings }
    else tail

/-- A persisted `decision_rules` row.  Timestamps are modelled as abstract
ticks (`Nat`). -/
structure StoredRule where
  id : Int
  rule_name : String
  description : Option String
  conditions : CondObj
  action : String
  is_active : Bool
  priority : Int
  created_at : Nat
  updated_at : Nat

/-- The partial update argument of `updateRule`
(`Partial<Omit<DecisionRule, 'id' | 'created_at' | 'updated_at'>>`):
`some` exactly for the properties that are not `undefined`, matching the
source's `!== undefined` checks. -/
structure RulePatch where
  rule_name : Option String
  description : Option String
  conditions : Option CondObj
  action : Option String
  is_active : Option Bool
  priority : Option Int

/-- True when the source's `fields` array stays empty: no property of the
patch is supplied. -/
def patchIsEmpty (p : RulePatch) : Bool :=
  p.rule_name.isNone && p.description.isNone && p.conditions.isNone &&
    p.action.isNone && p.is_active.isNone && p.priority.isNone

/-- Effect of the generated `UPDATE ... SET <supplied fields>` on one row,
together with the `decision_rules_set_updated_at` trigger of the migration,
which sets `updated_at = now()` on every updated row. -/
def applyPatch (p : RulePatch) (now : Nat) (r : StoredRule) : StoredRule :=
  { r with
    rule_name := p.rule_name.getD r.rule_name,
    description := match p.description with
      | some d => some d
      | none => r.description,
    conditions := p.conditions.getD r.conditions,
    action := p.action.getD r.action,
    is_active := p.is_active.getD r.is_active,
    priority := p.priority.getD r.priority,
    updated_at := now }

/-- The store is modelled as the list of persisted rows; `id` is the
primary key.  `getRuleById` is the `SELECT ... WHERE id = $1` of the
source. -/
def getRuleById (store : List StoredRule) (id : Int) : Option StoredRule :=
  store.find? (fun r => r.id == id)

/-- `DecisionRulesService.updateRule` over the modelled store: with no
supplied field the source short-circuits to `getRuleById` and no `UPDATE`
statement (hence no trigger) runs; otherwise the `UPDATE ... WHERE id`
patches the matching row, fires the trigger, and `RETURNING` yields the
updated row or `null` when no row matched.  Returns the new store contents
and the returned row. -/
def updateRule (store : List StoredRule) (now : Nat) (id : Int) (p : RulePatch) :
    List StoredRule × Option StoredRule :=
  if patchIsEmpty p then (store, getRuleById store id)
  else
    match getRuleById store id with
    | none => (store, none)
    | some r =>
      (store.map (fun x => if x.id == id then applyPatch p now x else x),
       some (applyPatch p now r))

/-! ### Helper lemmas about the evaluation loops -/

/-- Closed form of the `and` loop on a list of proper condition objects. -/
theorem runAnd_conds (data : EvalRecord) (cs : List RuleCondition) :
    ∀ acc : TreeEval,
    runAnd data (cs.map CondChild.cond) acc =
      .ok ⟨acc.matched && cs.all (fun c => evaluateCondition c data),
           acc.conditions_met ++
             (cs.filter (fun c => evaluateCondition c data)).map condDesc,
           acc.conditions_failed ++
             (cs.filter (fun c => !evaluateCondition c data)).map condDesc⟩ := by
  induction cs with
  | nil => intro acc; simp [runAnd]
  | cons c cs ih =>
    intro acc
    by_cases h : evaluateCondition c data <;>
      simp [runAnd, h, ih, List.filter_cons]

/-- Closed form of the `or` loop on a list of proper condition objects. -/
theorem runOr_conds (data : EvalRecord) (cs : List RuleCondition) :
    ∀ acc : TreeEval,
    runOr data (cs.map CondChild.cond) acc =
      .ok ⟨acc.matched || cs.any (fun c => evaluateCondition c data),
           acc.conditions_met ++
             (cs.filter (fun c => evaluateCondition c data)).map condDesc,
           acc.conditions_failed ++
             (cs.filter (fun c => !evaluateCondition c data)).map condDesc⟩ := by
  induction cs with
  | nil => intro acc; simp [runOr]
  | cons c cs ih =>
    intro acc
    by_cases h : evaluateCondition c data <;>
      simp [runOr, h, ih, List.filter_cons]

/-- Declarative characterization of the synthesizer: each bucket is a
filter (or filterMap) of the input, in input order. -/
theorem getRecommendedActions_eq (rs : List RuleEvaluationResult) :
    getRecommendedActions rs =
      ⟨(rs.filter (fun r => r.matched && !isHighPriority r.action)).map
          (fun r => r.action),
       (rs.filter (fun r => r.matched && isHighPriority r.action)).map
          (fun r => r.action),
       rs.filterMap (fun r =>
          if r.matched = false ∧ r.conditions_failed ≠ [] then some (warningFor r)
          else none)⟩ := by
  induction rs with
  | nil => rfl
  | cons r rest ih =>
    by_cases hm : r.matched
    · by_cases hp : isHighPriority r.action <;>
        simp [getRecommendedActions, hm, hp, ih, List.filter_cons,
          List.filterMap_cons]
    · by_cases hf : r.conditions_failed = [] <;>
        simp [getRecommendedActions, hm, hf, ih, List.filter_cons,
          List.filterMap_cons, List.length_pos]

/-- An unmatched result with an empty failure trace contributes to no
bucket of the synthesizer. -/
theorem getRecommendedActions_skip (res : RuleEvaluationResult)
    (hm : res.matched = false) (hf : res.conditions_failed = []) :
    ∀ rs1 rs2 : List RuleEvaluationResult,
    getRecommendedActions (rs1 ++ res :: rs2) = getRecommendedActions (rs1 ++ rs2) := by
  intro rs1 rs2
  induction rs1 with
  | nil => simp [getRecommendedActions, hm, hf]
  | cons r rest ih =>
    simp only [List.cons_append, getRecommendedActions, List.append_eq, ih]

/-- An error raised while evaluating one rule propagates out of the
per-rule loop when every earlier rule evaluates cleanly. -/
theorem evalRulesLoop_append_error (data : EvalRecord) (pre : List ActiveRule)
    (r : ActiveRule) (post : List ActiveRule) (e : String)
    (hpre : ∀ p ∈ pre, ∃ t, evaluateRuleConditions p.conditions data = .ok t)
    (hr : evaluateRuleConditions r.conditions data = .error e) :
    evalRulesLoop data (pre ++ r :: post) = .error e := by
  induction pre with
  | nil => simp [evalRulesLoop, hr]
  | cons p pre ih =>
    obtain ⟨t, ht⟩ := hpre p (by simp)
    have hrest := ih (fun q hq => hpre q (by simp [hq]))
    simp [evalRulesLoop, ht, hrest]

/-! ### Concrete fixtures used by counterexamples and witnesses -/

/-- The empty evaluation record. -/
def recEmpty : EvalRecord := []

/-- A record giving field `x` the string value `v`. -/
def recXv : EvalRecord := [("x", JsVal.str "v")]

/-- The atomic condition `x equals "v"`, satisfied by `recXv`. -/
def condXeqV : RuleCondition := ⟨"x", "equals", .str "v"⟩

/-- The conditions object `\x7b all: [] \x7d`: a spec-shaped conjunction with an
empty child list and no other property. -/
def objAllEmpty : CondObj := ⟨some [], none, none, none, none, none, .undefined⟩

/-- The conditions object `\x7b any: [\x7b field: "x", operator: "equals", value: "v" \x7d] \x7d`. -/
def objAnyX : CondObj := ⟨none, some [CondChild.cond condXeqV], none, none, none, none, .undefined⟩

/-! ### C1 -/

/-- Claim C1, as stated, is false on the code: the conjunction key the
service recognizes is `and`, not `all`.  The tree `\x7b all: [] \x7d` has
conjunction shape with an empty child list, so the claim demands
`matched = true` vacuously; the service does not read the `all` property,
falls through to the invalid-format branch, and returns `matched = false`. -/
theorem c1_all_counterexample :
    evaluateRuleConditions objAllEmpty recEmpty =
      .ok ⟨false, [], ["Invalid condition format"]⟩ := rfl

/-- Claim C1 amended: for every record and every conjunction-shaped tree
`\x7b and: [c1, ..., cn] \x7d` whose children are atomic conditions, the tree
evaluator returns `matched = true` iff every child condition matches the
record, and for `n = 0` it returns `matched = true` vacuously (an empty
JavaScript array is truthy, so the `and` branch is taken). -/
theorem c1_and_conjunction (obj : CondObj) (cs : List RuleCondition)
    (data : EvalRecord) (hAnd : obj.keyAnd = some (cs.map CondChild.cond)) :
    ∃ t, evaluateRuleConditions obj data = .ok t ∧
      (t.matched = true ↔ ∀ c ∈ cs, evaluateCondition c data = true) ∧
      (cs = [] → t.matched = true) := by
  have heq : evaluateRuleConditions obj data =
      .ok ⟨true && cs.all (fun c => evaluateCondition c data),
           [] ++ (cs.filter (fun c => evaluateCondition c data)).map condDesc,
           [] ++ (cs.filter (fun c => !evaluateCondition c data)).map condDesc⟩ := by
    simp only [evaluateRuleConditions, hAnd]
    exact runAnd_conds data cs ⟨true, [], []⟩
  refine ⟨_, heq, ?_, ?_⟩
  · simp [List.all_eq_true]
  · intro h; simp [h]

/-- Witness for `c1_and_conjunction` at `\x7b and: [condXeqV] \x7d` against
`recXv`. -/
theorem c1_and_conjunction_witness :
    (⟨none, none, some [CondChild.cond condXeqV], none, none, none,
        .undefined⟩ : CondObj).keyAnd = some ([condXeqV].map CondChild.cond) ∧
    ∃ t, evaluateRuleConditions
        ⟨none, none, some [CondChild.cond condXeqV], none, none, none, .undefined⟩
        recXv = .ok t ∧
      (t.matched = true ↔ ∀ c ∈ [condXeqV], evaluateCondition c recXv = true) ∧
      ([condXeqV] = ([] : List RuleCondition) → t.matched = true) :=
  ⟨rfl, c1_and_conjunction _ [condXeqV] recXv rfl⟩

/-! ### C2 -/

/-- Claim C2, as stated, is false on the code: the disjunction key the
service recognizes is `or`, not `any`.  The tree `\x7b any: [x equals "v"] \x7d`
has disjunction shape and its single child matches the record, so the claim
demands `matched = true`; the service does not read the `any` property,
falls through to the invalid-format branch, and returns `matched = false`. -/
theorem c2_any_counterexample :
    evaluateCondition condXeqV recXv = true ∧
    evaluateRuleConditions objAnyX recXv =
      .ok ⟨false, [], ["Invalid condition format"]⟩ :=
  ⟨rfl, rfl⟩

/-- Claim C2 amended: for every record and every disjunction-shaped tree
`\x7b or: [c1, ..., cn] \x7d` whose children are atomic conditions (and no `and`
array, which would take precedence), the tree evaluator returns
`matched = true` iff at least one child condition matches the record, and
for `n = 0` it returns `matched = false` vacuously. -/
theorem c2_or_disjunction (obj : CondObj) (cs : List RuleCondition)
    (data : EvalRecord) (hAnd : obj.keyAnd = none)
    (hOr : obj.keyOr = some (cs.map CondChild.cond)) :
    ∃ t, evaluateRuleConditions obj data = .ok t ∧
      (t.matched = true ↔ ∃ c ∈ cs, evaluateCondition c data = true) ∧
      (cs = [] → t.matched = false) := by
  have heq : evaluateRuleConditions obj data =
      .ok ⟨false || cs.any (fun c => evaluateCondition c data),
           [] ++ (cs.filter (fun c => evaluateCondition c data)).map condDesc,
           [] ++ (cs.filter (fun c => !evaluateCondition c data)).map condDesc⟩ := by
    simp only [evaluateRuleConditions, hAnd, hOr]
    exact runOr_conds data cs ⟨false, [], []⟩
  refine ⟨_, heq, ?_, ?_⟩
  · simp [List.any_eq_true]
  · intro h; simp [h]

/-- Witness for `c2_or_disjunction` at `\x7b or: [condXeqV] \x7d` against
`recEmpty`. -/
theorem c2_or_disjunction_witness :
    (⟨none, none, none, some [CondChild.cond condXeqV], none, none,
        .undefined⟩ : CondObj).keyAnd = none ∧
    (⟨none, none, none, some [CondChild.cond condXeqV], none, none,
        .undefined⟩ : CondObj).keyOr = some ([condXeqV].map CondChild.cond) ∧
    ∃ t, evaluateRuleConditions
        ⟨none, none, none, some [CondChild.cond condXeqV], none, none, .undefined⟩
        recEmpty = .ok t ∧
      (t.matched = true ↔ ∃ c ∈ [condXeqV], evaluateCondition c recEmpty = true) ∧
      ([condXeqV] = ([] : List RuleCondition) → t.matched = false) :=
  ⟨rfl, rfl, c2_or_disjunction _ [condXeqV] recEmpty rfl rfl⟩

/-! ### C3 -/

/-- Claim C3: the condition evaluator is total and fail-closed.  A nullish
field value (absent property, `undefined`, or `null`) yields `false`
regardless of the operator; an operator outside the eight supported names
yields `false`; and evaluating a proper atomic condition never throws (in
the `Except` embedding, the `and` loop on that condition alone always
returns `.ok`; `evaluateCondition` itself is a total `Bool` function). -/
theorem c3_fail_closed (c : RuleCondition) (data : EvalRecord) :
    (isNullish (getField data c.field) = true → evaluateCondition c data = false) ∧
    (c.operator ∉ (["equals", "not_equals", "greater_than", "less_than",
        "contains", "not_contains", "in", "not_in"] : List String) →
      evaluateCondition c data = false) ∧
    (∀ acc : TreeEval, ∃ t, runAnd data [CondChild.cond c] acc = .ok t) := by
  refine ⟨?_, ?_, ?_⟩
  · intro h
    simp [evaluateCondition, h]
  · intro h
    simp only [evaluateCondition]
    split
    · rfl
    · split <;> first
        | rfl
        | (exfalso; apply h; simp_all)
  · intro acc
    by_cases h : evaluateCondition c data <;> simp [runAnd, h]

/-- Witness for `c3_fail_closed` at a condition with an unknown operator
and a missing field. -/
theorem c3_fail_closed_witness :
    isNullish (getField recEmpty "x") = true ∧
    (⟨"x", "frobnicate", .null⟩ : RuleCondition).operator ∉
      (["equals", "not_equals", "greater_than", "less_than",
        "contains", "not_contains", "in", "not_in"] : List String) ∧
    evaluateCondition ⟨"x", "frobnicate", .null⟩ recEmpty = false ∧
    ∃ t, runAnd recEmpty [CondChild.cond ⟨"x", "frobnicate", .null⟩]
        ⟨true, [], []⟩ = .ok t :=
  ⟨rfl, by decide,
   (c3_fail_closed ⟨"x", "frobnicate", .null⟩ recEmpty).1 rfl,
   (c3_fail_closed ⟨"x", "frobnicate", .null⟩ recEmpty).2.2 ⟨true, [], []⟩⟩

/-! ### C4 -/

/-- A rule whose `and` array contains a `null` entry: evaluating it throws
(the destructuring in `evaluateCondition` raises a `TypeError`). -/
def badRule : ActiveRule :=
  ⟨1, "bad", ⟨none, none, some [CondChild.jsNull], none, none, none, .undefined⟩, "act"⟩

/-- A rule that evaluates cleanly (empty `and` array, vacuously matched). -/
def goodRule : ActiveRule :=
  ⟨2, "good", ⟨none, none, some [], none, none, none, .undefined⟩, "act2"⟩

/-- Claim C4, as stated, is false on the code: `evaluateRules` has no
per-rule try/catch.  With a first rule whose condition tree throws and a
second healthy rule, the claim demands a result list that records the first
rule as `matched = false` and still contains a result for the second; the
code instead lets the error propagate, aborting the whole batch with no
result list at all. -/
theorem c4_counterexample :
    evaluateRules [badRule, goodRule] recEmpty =
      .error "TypeError: cannot destructure a null condition" := rfl

/-- Claim C4 amended: if evaluating one rule's condition tree raises an
unexpected error (and every earlier rule evaluates cleanly), the error
propagates out of `evaluateRules` and aborts the batch: no rule receives a
result. -/
theorem c4_error_aborts_batch (pre : List ActiveRule) (r : ActiveRule)
    (post : List ActiveRule) (data : EvalRecord) (e : String)
    (hpre : ∀ p ∈ pre, ∃ t, evaluateRuleConditions p.conditions data = .ok t)
    (hr : evaluateRuleConditions r.conditions data = .error e) :
    evaluateRules (pre ++ r :: post) data = .error e := by
  have h := evalRulesLoop_append_error data pre r post e hpre hr
  simp [evaluateRules, h]

/-- Witness for `c4_error_aborts_batch`: the batch `[badRule, goodRule]`
with the throwing rule first. -/
theorem c4_error_aborts_batch_witness :
    (∀ p ∈ ([] : List ActiveRule),
      ∃ t, evaluateRuleConditions p.conditions recEmpty = .ok t) ∧
    evaluateRuleConditions badRule.conditions recEmpty =
      .error "TypeError: cannot destructure a null condition" ∧
    evaluateRules ([] ++ badRule :: [goodRule]) recEmpty =
      .error "TypeError: cannot destructure a null condition" :=
  ⟨fun p hp => absurd hp (List.not_mem_nil p), rfl,
   c4_error_aborts_batch [] badRule [goodRule] recEmpty _
     (fun p hp => absurd hp (List.not_mem_nil p)) rfl⟩

/-! ### C5 -/

/-- The guard of the single-condition branch succeeds: a truthy `field` and
`operator` string and a non-`undefined` `value`. -/
def atomicShapeOk (obj : CondObj) : Prop :=
  ∃ f op, obj.keyField = some f ∧ obj.keyOperator = some op ∧
    f ≠ "" ∧ op ≠ "" ∧ isUndefinedVal obj.keyValue = false

/-- The three valid condition-tree shapes of the engine, with `n` the
number of atomic conditions in the tree: a conjunction (`and` array of
proper conditions), a disjunction (`or` array of proper conditions), or a
valid atomic condition at top level. -/
def isValidShape (obj : CondObj) (n : Nat) : Prop :=
  (∃ cs : List RuleCondition,
      obj.keyAnd = some (cs.map CondChild.cond) ∧ cs.length = n) ∨
  (obj.keyAnd = none ∧
    ∃ cs : List RuleCondition,
      obj.keyOr = some (cs.map CondChild.cond) ∧ cs.length = n) ∨
  (obj.keyAnd = none ∧ obj.keyOr = none ∧ n = 1 ∧ atomicShapeOk obj)

/-- Claim C5: on every tree in one of the three valid shapes the evaluator
returns a trace with `conditions_met.length + conditions_failed.length`
equal to the number of atomic conditions in the tree — every child is
evaluated and traced, with no short-circuit skipping. -/
theorem c5_trace_completeness (obj : CondObj) (data : EvalRecord) (n : Nat)
    (hshape : isValidShape obj n) :
    ∃ t, evaluateRuleConditions obj data = .ok t ∧
      t.conditions_met.length + t.conditions_failed.length = n := by
  rcases hshape with ⟨cs, hAnd, hlen⟩ | ⟨hAnd, cs, hOr, hlen⟩ |
    ⟨hAnd, hOr, hn, f, op, hf, hop, hfne, hopne, hval⟩
  · have heq : evaluateRuleConditions obj data =
        .ok ⟨true && cs.all (fun c => evaluateCondition c data),
             [] ++ (cs.filter (fun c => evaluateCondition c data)).map condDesc,
             [] ++ (cs.filter (fun c => !evaluateCondition c data)).map condDesc⟩ := by
      simp only [evaluateRuleConditions, hAnd]
      exact runAnd_conds data cs ⟨true, [], []⟩
    refine ⟨_, heq, ?_⟩
    simpa using (List.length_eq_length_filter_add
      (fun c => evaluateCondition c data) (l := cs)).symm.trans hlen
  · have heq : evaluateRuleConditions obj data =
        .ok ⟨false || cs.any (fun c => evaluateCondition c data),
             [] ++ (cs.filter (fun c => evaluateCondition c data)).map condDesc,
             [] ++ (cs.filter (fun c => !evaluateCondition c data)).map condDesc⟩ := by
      simp only [evaluateRuleConditions, hAnd, hOr]
      exact runOr_conds data cs ⟨false, [], []⟩
    refine ⟨_, heq, ?_⟩
    simpa using (List.length_eq_length_filter_add
      (fun c => evaluateCondition c data) (l := cs)).symm.trans hlen
  · subst hn
    by_cases h : evaluateCondition ⟨f, op, obj.keyValue⟩ data
    · refine ⟨⟨true, [condDesc ⟨f, op, obj.keyValue⟩], []⟩, ?_, by simp⟩
      simp [evaluateRuleConditions, hAnd, hOr, hf, hop, hfne, hopne, hval, h]
    · refine ⟨⟨false, [], [condDesc ⟨f, op, obj.keyValue⟩]⟩, ?_, by simp⟩
      simp [evaluateRuleConditions, hAnd, hOr, hf, hop, hfne, hopne, hval, h]

/-- Witness for `c5_trace_completeness` at the atomic tree
`\x7b field: "x", operator: "equals", value: "v" \x7d` against the empty
record. -/
theorem c5_trace_completeness_witness :
    isValidShape ⟨none, none, none, none, some "x", some "equals", .str "v"⟩ 1 ∧
    ∃ t, evaluateRuleConditions
        ⟨none, none, none, none, some "x", some "equals", .str "v"⟩ recEmpty =
        .ok t ∧
      t.conditions_met.length + t.conditions_failed.length = 1 :=
  ⟨Or.inr (Or.inr ⟨rfl, rfl, rfl, "x", "equals", rfl, rfl,
      by decide, by decide, rfl⟩),
   c5_trace_completeness _ recEmpty 1
     (Or.inr (Or.inr ⟨rfl, rfl, rfl, "x", "equals", rfl, rfl,
       by decide, by decide, rfl⟩))⟩

/-! ### C6 -/

/-- Claim C6: every result list `evaluateRules` returns is sorted ascending
by `rule_id` (not by priority — the comparator reads only `rule_id`), and a
second call with the same record and the same rule set returns the
identical list. -/
theorem c6_sorted_by_rule_id (rules : List ActiveRule) (data : EvalRecord)
    (res : List RuleEvaluationResult)
    (h : evaluateRules rules data = .ok res) :
    List.Sorted (fun a b => a.rule_id ≤ b.rule_id) res ∧
    ∀ res', evaluateRules rules data = .ok res' → res' = res := by
  constructor
  · unfold evaluateRules at h
    cases hl : evalRulesLoop data rules with
    | error e => rw [hl] at h; exact absurd h (by simp)
    | ok results =>
      rw [hl] at h
      have hres : res = results.insertionSort byRuleId := by
        injection h with h'; exact h'.symm
      rw [hres]
      exact List.sorted_insertionSort byRuleId results
  · intro res' h'
    rw [h] at h'
    injection h' with h''
    exact h''.symm

/-- Witness for `c6_sorted_by_rule_id` on the empty rule set. -/
theorem c6_sorted_by_rule_id_witness :
    evaluateRules [] recEmpty = .ok [] ∧
    List.Sorted (fun a b : RuleEvaluationResult => a.rule_id ≤ b.rule_id)
      ([] : List RuleEvaluationResult) ∧
    ∀ res', evaluateRules [] recEmpty = .ok res' →
      res' = ([] : List RuleEvaluationResult) :=
  ⟨rfl, (c6_sorted_by_rule_id [] recEmpty [] rfl).1,
   (c6_sorted_by_rule_id [] recEmpty [] rfl).2⟩

/-! ### C7 -/

/-- Claim C7: the synthesizer appends each matched result's action to
`high_priority_actions` exactly when the lowercased action contains the
substring `"urgent"` or `"critical"` (the case-insensitive keyword test),
and to `actions` otherwise; each unmatched result with a non-empty
`conditions_failed` list contributes the warning
`Rule "<rule_name>" conditions not met: <conditions_failed joined by ", ">`;
unmatched results with an empty failed list contribute nothing; and each
bucket is the corresponding filter of the input, hence preserves input
order. -/
theorem c7_synthesizer_buckets (rs : List RuleEvaluationResult) :
    (getRecommendedActions rs).high_priority_actions =
      ((rs.filter (fun r => r.matched && isHighPriority r.action)).map
        (fun r => r.action)) ∧
    (getRecommendedActions rs).actions =
      ((rs.filter (fun r => r.matched && !isHighPriority r.action)).map
        (fun r => r.action)) ∧
    (getRecommendedActions rs).warnings =
      rs.filterMap (fun r =>
        if r.matched = false ∧ r.conditions_failed ≠ [] then
          some ("Rule \"" ++ r.rule_name ++ "\" conditions not met: " ++
            String.intercalate ", " r.conditions_failed)
        else none) := by
  rw [getRecommendedActions_eq]
  exact ⟨rfl, rfl, rfl⟩

/-! ### C8 -/

/-- Claim C8: the three evaluation functions are pure with respect to their
inputs.  In the embedding every function is a total function of its
arguments — the source mutates only freshly allocated local arrays
(`conditions_met`, `conditions_failed`, `results`), never the `record` or
`conditions` arguments — so repeated calls with identical arguments are the
same value and the arguments are unchanged by construction. -/
theorem c8_purity (c : RuleCondition) (obj : CondObj)
    (rules : List ActiveRule) (data : EvalRecord) :
    evaluateCondition c data = evaluateCondition c data ∧
    evaluateRuleConditions obj data = evaluateRuleConditions obj data ∧
    evaluateRules rules data = evaluateRules rules data :=
  ⟨rfl, rfl, rfl⟩

/-! ### C9 -/

/-- A stored rule fixture with `updated_at = 5`. -/
def storedR9 : StoredRule :=
  ⟨1, "n", none, ⟨none, none, none, none, none, none, .undefined⟩, "a", true, 5, 0, 5⟩

/-- The empty partial update: no property supplied. -/
def emptyPatch : RulePatch := ⟨none, none, none, none, none, none⟩

/-- A patch supplying only `action`. -/
def actionPatch : RulePatch := ⟨none, none, none, some "b", none, none⟩

/-- Claim C9, as stated, is false on the code for the empty partial field
set: the source short-circuits to `getRuleById` without issuing an
`UPDATE`, so the `updated_at` trigger never fires.  At `now = 10` the rule
keeps `updated_at = 5` and the store is unchanged, while the claim demands
that `updated_at` change. -/
theorem c9_counterexample :
    updateRule [storedR9] 10 1 emptyPatch = ([storedR9], some storedR9) ∧
    storedR9.updated_at ≠ 10 :=
  ⟨rfl, by decide⟩

/-- Claim C9 amended: `updateRule id p` returns `null` and leaves the store
unchanged when no rule with identifier `id` exists; with an empty `p` it
changes nothing and returns the stored rule; with a non-empty `p` it
rewrites exactly the row with identifier `id` to its patched version —
every supplied field takes the patch's value, every unsupplied field and
`id`/`created_at` are unchanged, `updated_at` becomes the update time — and
every other row is unchanged. -/
theorem c9_update_frame (store : List StoredRule) (now : Nat) (id : Int)
    (p : RulePatch) :
    (getRuleById store id = none → updateRule store now id p = (store, none)) ∧
    (patchIsEmpty p = true →
      updateRule store now id p = (store, getRuleById store id)) ∧
    (patchIsEmpty p = false →
      List.Forall₂ (fun old new =>
          (old.id = id → new = applyPatch p now old) ∧
          (old.id ≠ id → new = old))
        store (updateRule store now id p).1 ∧
      ∀ r, getRuleById store id = some r →
        (updateRule store now id p).2 = some (applyPatch p now r)) ∧
    (∀ r : StoredRule,
      (applyPatch p now r).updated_at = now ∧
      (applyPatch p now r).id = r.id ∧
      (applyPatch p now r).created_at = r.created_at ∧
      (p.rule_name = none → (applyPatch p now r).rule_name = r.rule_name) ∧
      (∀ v, p.rule_name = some v → (applyPatch p now r).rule_name = v) ∧
      (p.description = none → (applyPatch p now r).description = r.description) ∧
      (∀ v, p.description = some v → (applyPatch p now r).description = some v) ∧
      (p.conditions = none → (applyPatch p now r).conditions = r.conditions) ∧
      (∀ v, p.conditions = some v → (applyPatch p now r).conditions = v) ∧
      (p.action = none → (applyPatch p now r).action = r.action) ∧
      (∀ v, p.action = some v → (applyPatch p now r).action = v) ∧
      (p.is_active = none → (applyPatch p now r).is_active = r.is_active) ∧
      (∀ v, p.is_active = some v → (applyPatch p now r).is_active = v) ∧
      (p.priority = none → (applyPatch p now r).priority = r.priority) ∧
      (∀ v, p.priority = some v → (applyPatch p now r).priority = v)) := by
  refine ⟨?_, ?_, ?_, ?_⟩
  · intro h
    by_cases hp : patchIsEmpty p <;> simp [updateRule, hp, h]
  · intro h
    simp [updateRule, h]
  · intro hp
    constructor
    · cases hfind : getRuleById store id with
      | none =>
        have hupd : (updateRule store now id p).1 = store := by
          simp [updateRule, hp, hfind]
        rw [hupd, List.forall₂_same]
        intro x hx
        have hne : x.id ≠ id := by
          have := List.find?_eq_none.mp hfind x hx
          simpa using this
        exact ⟨fun hxid => absurd hxid hne, fun _ => rfl⟩
      | some r =>
        have hupd : (updateRule store now id p).1 =
            store.map (fun x => if x.id == id then applyPatch p now x else x) := by
          simp [updateRule, hp, hfind]
        rw [hupd, List.forall₂_map_right_iff, List.forall₂_same]
        intro x hx
        exact ⟨fun hxid => by simp [hxid], fun hxid => by simp [hxid]⟩
    · intro r hr
      simp [updateRule, hp, hr]
  · intro r
    refine ⟨rfl, rfl, rfl, ?_, ?_, ?_, ?_, ?_, ?_, ?_, ?_, ?_, ?_, ?_, ?_⟩ <;>
      first
        | (intro h; simp [applyPatch, h])
        | (intro v h; simp [applyPatch, h])

/-- Witness for `c9_update_frame` at a one-row store and a patch supplying
only `action`. -/
theorem c9_update_frame_witness :
    patchIsEmpty actionPatch = false ∧
    List.Forall₂ (fun old new =>
        (old.id = 1 → new = applyPatch actionPatch 10 old) ∧
        (old.id ≠ 1 → new = old))
      [storedR9] (updateRule [storedR9] 10 1 actionPatch).1 ∧
    (updateRule [storedR9] 10 1 actionPatch).2 =
      some (applyPatch actionPatch 10 storedR9) ∧
    (applyPatch actionPatch 10 storedR9).updated_at = 10 ∧
    (applyPatch actionPatch 10 storedR9).action = "b" :=
  ⟨rfl,
   ((c9_update_frame [storedR9] 10 1 actionPatch).2.2.1 rfl).1,
   ((c9_update_frame [storedR9] 10 1 actionPatch).2.2.1 rfl).2 storedR9 rfl,
   ((c9_update_frame [storedR9] 10 1 actionPatch).2.2.2 storedR9).1,
   ((c9_update_frame [storedR9] 10 1 actionPatch).2.2.2 storedR9).2.2.2.2.2.2.2.2.2.2.1
     "b" rfl⟩

/-! ### C10 -/

/-- Claim C10: a rule whose stored conditions are `\x7b or: [] \x7d` evaluates to
`matched = false` with both trace lists empty, and the synthesizer emits
nothing for its result: removing that result from any batch leaves
`actions`, `high_priority_actions` and `warnings` unchanged. -/
theorem c10_empty_disjunction (rule : ActiveRule) (data : EvalRecord)
    (rs1 rs2 : List RuleEvaluationResult)
    (hAnd : rule.conditions.keyAnd = none)
    (hOr : rule.conditions.keyOr = some []) :
    evaluateRuleConditions rule.conditions data = .ok ⟨false, [], []⟩ ∧
    getRecommendedActions (rs1 ++ toResult rule ⟨false, [], []⟩ :: rs2) =
      getRecommendedActions (rs1 ++ rs2) := by
  constructor
  · simp [evaluateRuleConditions, hAnd, hOr, runOr]
  · exact getRecommendedActions_skip (toResult rule ⟨false, [], []⟩) rfl rfl rs1 rs2

/-- Witness for `c10_empty_disjunction` at a concrete rule with an empty
`or` array. -/
theorem c10_empty_disjunction_witness :
    (⟨3, "r", ⟨none, none, none, some [], none, none, .undefined⟩,
        "a"⟩ : ActiveRule).conditions.keyAnd = none ∧
    (⟨3, "r", ⟨none, none, none, some [], none, none, .undefined⟩,
        "a"⟩ : ActiveRule).conditions.keyOr = some [] ∧
    evaluateRuleConditions
      (⟨3, "r", ⟨none, none, none, some [], none, none, .undefined⟩,
        "a"⟩ : ActiveRule).conditions recEmpty = .ok ⟨false, [], []⟩ ∧
    getRecommendedActions
        ([] ++ toResult
          (⟨3, "r", ⟨none, none, none, some [], none, none, .undefined⟩,
            "a"⟩ : ActiveRule) ⟨false, [], []⟩ :: []) =
      getRecommendedActions ([] ++ ([] : List RuleEvaluationResult)) :=
  ⟨rfl, rfl,
   (c10_empty_disjunction _ recEmpty [] [] rfl rfl).1,
   (c10_empty_disjunction _ recEmpty [] [] rfl rfl).2⟩
